import Mathlib

/-!
Shallow embedding of the `ls_libs` layered virtual-memory allocator
(`src/ls_lalloc.h`), the chunk arena (`src/ls_chunk_arena.h`) and the
page-range decommit helpers (`src/ls_valloc.h`, `src/ls_mallocs.h`).

Machine integers are modelled as `Nat` with explicit reduction `% 2^64`
(resp. `% 2^8` for a `ls_u8_t` truncation) exactly where the C program
performs 64-bit (resp. 8-bit) arithmetic that can wrap.  Byte-addressable
memory is modelled as a total function `Nat → Nat` giving, for each byte
address, the 64-bit word stored at that address; the allocators only ever
read and write whole words (`void*` / `ls_u64_t` slots), which this
representation captures.  The OS calls `madvise`/`mprotect` only change
page protections and residency, never the values the program observes
through its own reads, so they have no effect on the model state.
-/

/-- `2^64`, the modulus of `ls_u64_t` arithmetic. -/
def W64 : Nat := 2 ^ 64

/-- `2^8`, the modulus of `ls_u8_t` arithmetic. -/
def W8 : Nat := 2 ^ 8

/-- Store the 64-bit word `v` at byte address `a` of memory `m`. -/
def wupd (m : Nat → Nat) (a v : Nat) : Nat → Nat :=
  fun x => if x = a then v else m x

/-- 64-bit subtraction `a - b` as the C cast `(ls_u64_t)(a - b)` computes it
(two's complement wraparound). -/
def usub64 (a b : Nat) : Nat := (a + (W64 - b % W64)) % W64

/-- Fuel-driven bit length, structurally recursive so that the kernel can
evaluate it inside `decide`/`rfl` proofs. -/
def bitlenAux : Nat → Nat → Nat
  | 0, _ => 0
  | fuel + 1, n => if n = 0 then 0 else bitlenAux fuel (n / 2) + 1

/-- Number of bits needed to write a 64-bit value `n` in binary
(`0` for `n = 0`). -/
def bitlen (n : Nat) : Nat := bitlenAux 64 n

/-- `__builtin_clzll` on a nonzero 64-bit value: count of leading zeros.
(The builtin is undefined at `0`; every use below feeds it a nonzero
argument.) -/
def builtin_clzll (n : Nat) : Nat := 64 - bitlen n

/-- Fuel-driven count of trailing zeros. -/
def ctzAux : Nat → Nat → Nat
  | 0, _ => 0
  | fuel + 1, n => if n % 2 = 0 ∧ n ≠ 0 then ctzAux fuel (n / 2) + 1 else 0

/-- `__builtin_ctzll` on a nonzero 64-bit value: count of trailing zeros.
(Undefined at `0` in C; every use below feeds it a nonzero argument.) -/
def builtin_ctzll (n : Nat) : Nat := ctzAux 64 n

/-- `LS_CEIL_LOG2(n) = 64 - __builtin_clzll((n) - 1)` (src/ls_macros.h). -/
def LS_CEIL_LOG2 (n : Nat) : Nat := 64 - builtin_clzll (n - 1)

/-- `LS_ROUND_DOWN_TO(n, m) = (n) - ((n) % (m))` (src/ls_macros.h),
also `_LS_MULT_TO` in src/ls_chunk_arena.h, src/ls_valloc.h and
src/ls_mallocs.h. -/
def LS_ROUND_DOWN_TO (n m : Nat) : Nat := n - n % m

/-- `LS_ROUND_UP_TO(n, m) = ((n) + (m) - 1) / (m) * (m)` (src/ls_macros.h). -/
def LS_ROUND_UP_TO (n m : Nat) : Nat := (n + m - 1) / m * m

/-- Modelled from the spec: the macro `LS_MIN` is applied in
`src/ls_lalloc.h` lines 229-230 and 261-263 as
`LS_CEIL_LOG2(LS_MIN(size, LS_LALLOC_MIN_Z_))`, but no definition of
`LS_MIN` exists anywhere under src — `src/ls_macros.h` is a corrupted
concatenation of two header revisions and defines neither `LS_MIN` nor
`LS_MAX`.  Spec section 4.3 fixes the intended meaning of this clamp:
`layer_of(size) = ⌈log₂(max(size, 64))⌉ − 6`, i.e. the request is clamped
UP to the minimum block size, so the missing macro is modelled as `max`. -/
def LS_MIN (a b : Nat) : Nat := max a b

/-- `LS_LALLOC_VSPACE_Z_`: 35 TiB virtual reservation. -/
def LS_LALLOC_VSPACE_Z_ : Nat := 0x230000000000

/-- `LS_LALLOC_MIN_Z_`: minimum block size, 64 bytes. -/
def LS_LALLOC_MIN_Z_ : Nat := 64

/-- `LS_LALLOC_MIN_SHIFT_ = log2(LS_LALLOC_MIN_Z_)`. -/
def LS_LALLOC_MIN_SHIFT_ : Nat := 6

/-- `LS_LALLOC_MAX_Z_`: maximum block size, 1 TiB. -/
def LS_LALLOC_MAX_Z_ : Nat := 0x10000000000

/-- `LS_LALLOC_LAYER_Z_ = LS_LALLOC_MAX_Z_`. -/
def LS_LALLOC_LAYER_Z_ : Nat := LS_LALLOC_MAX_Z_

/-- `LS_LALLOC_LAYER_C_`: 35 layers. -/
def LS_LALLOC_LAYER_C_ : Nat := 35

/-- `LS_LALLOC_MEMCPY_THRES`: 8 MiB. -/
def LS_LALLOC_MEMCPY_THRES : Nat := 0x800000

/-- The block size `1llu << LS_CEIL_LOG2(LS_MIN(size, LS_LALLOC_MIN_Z_))`
computed at src/ls_lalloc.h:229 (and 261). -/
def lalloc_block_z (size : Nat) : Nat :=
  1 <<< LS_CEIL_LOG2 (LS_MIN size LS_LALLOC_MIN_Z_)

/-- The layer index `LS_CEIL_LOG2(LS_MIN(size, LS_LALLOC_MIN_Z_)) -
LS_LALLOC_MIN_SHIFT_` computed at src/ls_lalloc.h:230 (and 263). -/
def lalloc_layer_i (size : Nat) : Nat :=
  LS_CEIL_LOG2 (LS_MIN size LS_LALLOC_MIN_Z_) - LS_LALLOC_MIN_SHIFT_

/-- Per-layer header (src/ls_lalloc.h:125-134).  Addresses are `Nat`;
`deleted_head = 0` is `LS_NULL`. -/
structure ls_lalloc_layer_header_ where
  layer_p : Nat
  block_z : Nat
  block_c : Nat
  block_max : Nat
  head_i : Nat
  deleted_head : Nat
deriving Repr, DecidableEq

/-- Value produced by reading `header_a` out of bounds; the C program's
behaviour is undefined there and no theorem below depends on this value. -/
def oobHeader : ls_lalloc_layer_header_ :=
  { layer_p := 0, block_z := 0, block_c := 0, block_max := 0, head_i := 0
    deleted_head := 0 }

/-- The global allocator state `ls_lalloc_meta_` (src/ls_lalloc.h:137-155)
together with the process memory it reads and writes.  `mem a` is the
64-bit word stored at byte address `a`; the allocator only accesses
word-sized slots.  `spinlock = true` means the atomic flag is set. -/
structure LallocMeta where
  initialized : Bool
  vspace_p : Nat
  page_z : Nat
  header_a : List ls_lalloc_layer_header_
  spinlock : Bool
  mem : Nat → Nat

/-- The OS facilities consumed during lazy init: the result of the 35 TiB
`mmap` reservation (`none` = `MAP_FAILED`) and `sysconf(_SC_PAGESIZE)`. -/
structure OsEnv where
  mmap_result : Option Nat
  page_size : Nat

/-- The header table built by `ls_lalloc_init_` (src/ls_lalloc.h:188-203). -/
def ls_lalloc_init_headers_ (vspace_p : Nat) : List ls_lalloc_layer_header_ :=
  (List.range 35).map fun i =>
    { layer_p := (vspace_p + i * LS_LALLOC_MAX_Z_) % W64
      block_z := LS_LALLOC_MIN_Z_ <<< i
      block_c := 0
      block_max := LS_LALLOC_MAX_Z_ / (LS_LALLOC_MIN_Z_ <<< i)
      head_i := 0
      deleted_head := 0 }

/-- `ls_lalloc_init_` (src/ls_lalloc.h:174-212): reserve the virtual window,
fill the header table, cache the page size, set `initialized`.  Returns
`LS_FALSE` and leaves the state unchanged when `mmap` fails. -/
def ls_lalloc_init_ (os : OsEnv) (s : LallocMeta) : Bool × LallocMeta :=
  match os.mmap_result with
  | none => (false, s)
  | some p =>
    (true,
      { s with
        vspace_p := p
        header_a := ls_lalloc_init_headers_ p
        page_z := os.page_size
        initialized := true })

/-- `ls_lalloc_layer_del_spot_` (src/ls_lalloc.h:394-439), translated
branch for branch.  Note the unpacked (`block_z < page_z`) branch does not
return: control falls through into the packed-list push below it, exactly
as in the source.  The `madvise`/`mprotect` calls only alter page
residency/protection and so do not appear in the state. -/
def ls_lalloc_layer_del_spot_ (s : LallocMeta) (layer_i spot : Nat) : LallocMeta :=
  let h0 := s.header_a.getD layer_i oobHeader
  -- unpacked backwards linked list (lines 398-404)
  let s1 :=
    if h0.block_z < s.page_z then
      { s with
        mem := wupd (wupd s.mem spot h0.deleted_head) (spot + 8) 0
        header_a := s.header_a.set layer_i { h0 with deleted_head := spot } }
    else s
  -- packed backwards linked list (lines 406-437)
  let h1 := s1.header_a.getD layer_i oobHeader
  let kfull := s1.page_z / 8 - 2
  let s2 :=
    if h1.deleted_head = 0 ∨ s1.mem (h1.deleted_head + 8) = kfull then
      -- node is full (lines 413-433): promote [spot] to the new head node
      let sA :=
        { s1 with
          mem := wupd s1.mem spot h1.deleted_head
          header_a := s1.header_a.set layer_i { h1 with deleted_head := spot } }
      { sA with mem := wupd sA.mem (spot + 8) 0 }
    else s1
  -- push the freed address into the head node (lines 435-436)
  let h2 := s2.header_a.getD layer_i oobHeader
  let link_c := s2.mem (h2.deleted_head + 8)
  { s2 with
    mem := wupd (wupd s2.mem (h2.deleted_head + 8 * (link_c + 2)) spot)
      (h2.deleted_head + 8) ((link_c + 1) % W64) }

/-- `ls_lalloc_layer_get_del_spot_` (src/ls_lalloc.h:346-392). -/
def ls_lalloc_layer_get_del_spot_ (s : LallocMeta) (layer_i : Nat) : Nat × LallocMeta :=
  let h := s.header_a.getD layer_i oobHeader
  if h.block_z < s.page_z then
    -- unpacked backwards linked list (lines 350-359)
    let spot := h.deleted_head
    (spot,
      { s with header_a := s.header_a.set layer_i { h with deleted_head := s.mem spot } })
  else
    -- packed backwards linked list (lines 361-389)
    let link_c := s.mem (h.deleted_head + 8)
    let spot := s.mem (h.deleted_head + 8 * (link_c + 1))
    let link_c1 := (link_c + (W64 - 1)) % W64
    let s1 := { s with mem := wupd s.mem (h.deleted_head + 8) link_c1 }
    if link_c1 = 0 then
      -- node is empty (lines 372-387): unlink it and decommit its page
      (spot,
        { s1 with
          header_a :=
            s1.header_a.set layer_i { h with deleted_head := s1.mem h.deleted_head } })
    else
      (spot, s1)

/-- `ls_lalloc_layer_get_spot_` (src/ls_lalloc.h:320-344).  The layer-full
check against `block_max` is commented out in the source (lines 322-329)
and is therefore absent here. -/
def ls_lalloc_layer_get_spot_ (s : LallocMeta) (layer_i : Nat) : Nat × LallocMeta :=
  let h := s.header_a.getD layer_i oobHeader
  if h.deleted_head = 0 then
    let spot := (h.layer_p + h.head_i * h.block_z) % W64
    (spot,
      { s with
        header_a := s.header_a.set layer_i
          { h with head_i := (h.head_i + 1) % W64, block_c := (h.block_c + 1) % W64 } })
  else
    ls_lalloc_layer_get_del_spot_ s layer_i

/-- `ls_lalloc` (src/ls_lalloc.h:215-245).  Return value `0` is `LS_NULL`.
The two early `return LS_NULL` statements (init failure, line 221, and
oversize, line 226) do not call `ls_lalloc_spinunlock_`, so the state they
return has `spinlock = true`, exactly as in the source.  The `mprotect`
commit of the block's pages (lines 238-239) changes protections only. -/
def ls_lalloc (os : OsEnv) (s : LallocMeta) (size : Nat) : Nat × LallocMeta :=
  let s0 := { s with spinlock := true }
  let (ok, s1) :=
    if s0.initialized = true then (true, s0) else ls_lalloc_init_ os s0
  if ok = false then (0, s1)
  else if size > LS_LALLOC_MAX_Z_ then (0, s1)
  else
    let layer_i := lalloc_layer_i size
    let (spot, s2) := ls_lalloc_layer_get_spot_ s1 layer_i
    (spot, { s2 with spinlock := false })

/-- Word-granular `LS_MEMCPY(dst, src, n)`: the `n` bytes at `src` are
copied to `dst`; on the word-addressed memory model this replaces every
word slot in `[dst, dst + n)` by the corresponding word at `src`. -/
def ls_memcpy_mem (m : Nat → Nat) (dst src n : Nat) : Nat → Nat :=
  fun a => if dst ≤ a ∧ a < dst + n ∧ (a - dst) % 8 = 0 then m (src + (a - dst)) else m a

/-- Result of `ls_relalloc`: the returned pointer, the final state, and the
observable data-movement actions taken: `copied = some (dst, src, n)` when
`LS_MEMCPY(dst, src, n)` ran (line 278), `remapped = some (src, n, dst)`
when `mremap(src, n, n, …, dst)` ran (lines 289-290). -/
structure RelallocResult where
  ret : Nat
  meta : LallocMeta
  copied : Option (Nat × Nat × Nat)
  remapped : Option (Nat × Nat × Nat)

/-- `ls_relalloc` (src/ls_lalloc.h:247-307).  The init-failure `return
LS_NULL` (line 258) leaves the spinlock set, as in the source;
`old_layer_i` is the `ls_u8_t` truncation of `(mem - vspace_p) /
LS_LALLOC_LAYER_Z_` (line 264).  `mremap` with `MREMAP_DONTUNMAP` moves
the physical pages of the old block to `spot` and leaves the source range
backed by fresh zero pages. -/
def ls_relalloc (os : OsEnv) (s : LallocMeta) (mem size : Nat) : RelallocResult :=
  if mem = 0 then
    let (r, s') := ls_lalloc os s size
    { ret := r, meta := s', copied := none, remapped := none }
  else
    let s0 := { s with spinlock := true }
    let (ok, s1) :=
      if s0.initialized = true then (true, s0) else ls_lalloc_init_ os s0
    if ok = false then { ret := 0, meta := s1, copied := none, remapped := none }
    else
      let new_layer_i := lalloc_layer_i size
      let old_layer_i := (usub64 mem s1.vspace_p / LS_LALLOC_LAYER_Z_) % W8
      let (spot, s2) := ls_lalloc_layer_get_spot_ s1 new_layer_i
      let new_block_z := (s2.header_a.getD new_layer_i oobHeader).block_z
      let old_block_z := (s2.header_a.getD old_layer_i oobHeader).block_z
      if new_block_z < LS_LALLOC_MEMCPY_THRES then
        -- mprotect-commit at spot (lines 274-275), then byte copy (line 278)
        let s3 := { s2 with mem := ls_memcpy_mem s2.mem spot mem old_block_z }
        let s4 := ls_lalloc_layer_del_spot_ s3 old_layer_i mem
        { ret := spot, meta := { s4 with spinlock := false }
          copied := some (spot, mem, old_block_z), remapped := none }
      else
        -- mremap the old block onto spot (lines 289-296)
        let s3 :=
          { s2 with
            mem := fun a =>
              if spot ≤ a ∧ a < spot + old_block_z ∧ (a - spot) % 8 = 0 then
                s2.mem (mem + (a - spot))
              else if mem ≤ a ∧ a < mem + old_block_z ∧ (a - mem) % 8 = 0 then 0
              else s2.mem a }
        let s4 := ls_lalloc_layer_del_spot_ s3 old_layer_i mem
        { ret := spot, meta := { s4 with spinlock := false }
          copied := none, remapped := some (mem, old_block_z, spot) }

/-- `ls_lfree` (src/ls_lalloc.h:309-317).  There is no null guard: the
layer index is computed from `mem` unconditionally and `del_spot_` runs on
whatever that yields. -/
def ls_lfree (s : LallocMeta) (mem : Nat) : LallocMeta :=
  let s0 := { s with spinlock := true }
  let layer_i := (usub64 mem s0.vspace_p / LS_LALLOC_LAYER_Z_) % W8
  let s1 := ls_lalloc_layer_del_spot_ s0 layer_i mem
  { s1 with spinlock := false }

/-- Number of nodes reachable from an unpacked free-list head by following
the word stored at offset 0 of each node, cut off by `fuel` (a layer holds
finitely many blocks, so any acyclic list is exhausted by a large fuel). -/
def unpacked_free_len (m : Nat → Nat) : Nat → Nat → Nat
  | 0, _ => 0
  | fuel + 1, h => if h = 0 then 0 else 1 + unpacked_free_len m fuel (m h)

/-- A freshly initialized allocator state over window base `vspace_p` with
4 KiB pages, all memory zero, lock free: the state reached by the first
successful `ls_lalloc_init_`. -/
def initState (vspace_p : Nat) : LallocMeta :=
  { initialized := true
    vspace_p := vspace_p
    page_z := 4096
    header_a := ls_lalloc_init_headers_ vspace_p
    spinlock := false
    mem := fun _ => 0 }

/-- A fixed OS environment for runs that start from `initState` (the init
path is never taken there, so the values are irrelevant). -/
def someOs : OsEnv := { mmap_result := some (2 ^ 44), page_size := 4096 }

/-! ## Chunk arena (src/ls_chunk_arena.h) -/

/-- `ls_chunk_arena_t` (src/ls_chunk_arena.h:107-116). -/
structure ls_chunk_arena_t where
  _memory : Nat
  _max_chunk_c : Nat
  _chunk_size : Nat
  _chunk_c : Nat
  _next_committed_chunk : Nat
  _last_deleted_chunk : Nat
deriving Repr, DecidableEq

/-- `LS_CHUNK_ARENA_SUCCESS`. -/
def LS_CHUNK_ARENA_SUCCESS : Nat := 0

/-- `LS_CHUNK_ARENA_MEM_FULL = 0x43484100 | 2`. -/
def LS_CHUNK_ARENA_MEM_FULL : Nat := 0x43484102

/-- `_LS_CHUNK_ARENA_INDEX_TO_PTR` (src/ls_chunk_arena.h:104). -/
def ls_chunk_arena_index_to_ptr (a : ls_chunk_arena_t) (index : Nat) : Nat :=
  (index * a._chunk_size + a._memory) % W64

/-- `ls_chunk_arena_init` (src/ls_chunk_arena.h:125-138). -/
def ls_chunk_arena_init (memory memory_size chunk_size : Nat) : ls_chunk_arena_t :=
  { _memory := memory
    _max_chunk_c := memory_size >>> builtin_ctzll chunk_size
    _chunk_size := chunk_size
    _chunk_c := 0
    _next_committed_chunk := 1
    _last_deleted_chunk := 0 }

/-- `_ls_chunk_arena_revive_last_deleted_chunk` (src/ls_chunk_arena.h:166-173).
Reads the stacked index out of the first word of the popped chunk. -/
def ls_chunk_arena_revive_last_deleted_chunk_ (m : Nat → Nat)
    (a : ls_chunk_arena_t) : Nat × ls_chunk_arena_t :=
  let deleted_chunk := ls_chunk_arena_index_to_ptr a (a._last_deleted_chunk - 1)
  (deleted_chunk, { a with _last_deleted_chunk := m deleted_chunk })

/-- `ls_chunk_arena_get_chunk` (src/ls_chunk_arena.h:141-164).  The
caller-supplied `_ls_chunk_arena_alloca_commit_range` binding commits
pages and does not change any value the arena reads, so it is a no-op
here.  Returns (pointer, status, new arena); the memory is not written. -/
def ls_chunk_arena_get_chunk (m : Nat → Nat) (a : ls_chunk_arena_t) :
    Nat × Nat × ls_chunk_arena_t :=
  if a._max_chunk_c = a._chunk_c then
    (0, LS_CHUNK_ARENA_MEM_FULL, a)
  else
    let a1 := { a with _chunk_c := (a._chunk_c + 1) % W64 }
    if a1._last_deleted_chunk = 0 then
      let chunk_ptr := ls_chunk_arena_index_to_ptr a1 (a1._next_committed_chunk - 1)
      (chunk_ptr, LS_CHUNK_ARENA_SUCCESS,
        { a1 with _next_committed_chunk := (a1._next_committed_chunk + 1) % W64 })
    else
      let (p, a2) := ls_chunk_arena_revive_last_deleted_chunk_ m a1
      (p, LS_CHUNK_ARENA_SUCCESS, a2)

/-- `ls_chunk_arena_delete_chunk` (src/ls_chunk_arena.h:176-186): round the
pointer down to the chunk boundary, push its 1-based index onto the free
stack threaded through the chunks' first words. -/
def ls_chunk_arena_delete_chunk (m : Nat → Nat) (a : ls_chunk_arena_t)
    (chunk_ptr : Nat) : (Nat → Nat) × ls_chunk_arena_t :=
  let p := LS_ROUND_DOWN_TO chunk_ptr a._chunk_size
  let chunk_i := usub64 p a._memory >>> builtin_ctzll a._chunk_size
  (wupd m p a._last_deleted_chunk,
    { a with
      _last_deleted_chunk := (chunk_i + 1) % W64
      _chunk_c := (a._chunk_c + (W64 - 1)) % W64 })

/-- Step 1 of the LIFO scenario `a = acquire; b = acquire; release(b);
release(a); c = acquire; d = acquire` over the chunk arena: the first
acquire. -/
def c8_g1 (m : Nat → Nat) (a : ls_chunk_arena_t) : Nat × Nat × ls_chunk_arena_t :=
  ls_chunk_arena_get_chunk m a

/-- Step 2: the second acquire. -/
def c8_g2 (m : Nat → Nat) (a : ls_chunk_arena_t) : Nat × Nat × ls_chunk_arena_t :=
  ls_chunk_arena_get_chunk m (c8_g1 m a).2.2

/-- Step 3: `release(b)`. -/
def c8_d1 (m : Nat → Nat) (a : ls_chunk_arena_t) : (Nat → Nat) × ls_chunk_arena_t :=
  ls_chunk_arena_delete_chunk m (c8_g2 m a).2.2 (c8_g2 m a).1

/-- Step 4: `release(a)`. -/
def c8_d2 (m : Nat → Nat) (a : ls_chunk_arena_t) : (Nat → Nat) × ls_chunk_arena_t :=
  ls_chunk_arena_delete_chunk (c8_d1 m a).1 (c8_d1 m a).2 (c8_g1 m a).1

/-- Step 5: `c = acquire`. -/
def c8_g3 (m : Nat → Nat) (a : ls_chunk_arena_t) : Nat × Nat × ls_chunk_arena_t :=
  ls_chunk_arena_get_chunk (c8_d2 m a).1 (c8_d2 m a).2

/-- Step 6: `d = acquire`. -/
def c8_g4 (m : Nat → Nat) (a : ls_chunk_arena_t) : Nat × Nat × ls_chunk_arena_t :=
  ls_chunk_arena_get_chunk (c8_d2 m a).1 (c8_g3 m a).2.2

/-! ## Page-range decommit (src/ls_valloc.h:152-170, src/ls_mallocs.h:192-210) -/

/-- `ls_valloc_pfree_range` / `ls_pfree_range` — identical logic in both
files.  Returns `none` when the function returns without calling
`madvise(…, MADV_DONTNEED)`, else `some (start, len)`: the byte range
`[start, start + len)` handed to `madvise`.  `memtotal` stands for
`_ls_valloc_memtotal()` / `_ls_memtotal()` and `page_size` for the OS page
size. -/
def ls_pfree_range (memtotal page_size ptr offset range : Nat) : Option (Nat × Nat) :=
  let offset1 := (LS_ROUND_DOWN_TO offset page_size + page_size) % W64
  let range1 := LS_ROUND_DOWN_TO range page_size
  if range1 = 0 ∨ offset1 ≥ memtotal then
    none
  else
    let range2 := if offset1 + range1 > memtotal then memtotal - offset1 else range1
    some ((ptr + offset1) % W64, range2)

/-! Arithmetic facts about the size-to-layer mapping. -/

theorem bitlenAux_eq : ∀ (fuel n : Nat), n < 2 ^ fuel →
    bitlenAux fuel n = if n = 0 then 0 else Nat.log2 n + 1 := by
  intro fuel
  induction fuel with
  | zero =>
    intro n h
    have hn : n = 0 := by simpa using h
    subst hn
    rfl
  | succ fuel ih =>
    intro n h
    by_cases hn : n = 0
    · subst hn; simp [bitlenAux]
    · simp only [bitlenAux, hn, if_false]
      have hdiv : n / 2 < 2 ^ fuel := by
        rw [Nat.div_lt_iff_lt_mul (by norm_num)]
        calc n < 2 ^ (fuel + 1) := h
        _ = 2 ^ fuel * 2 := by rw [Nat.pow_succ]
      rw [ih (n / 2) hdiv]
      by_cases h1 : n / 2 = 0
      · have hn1 : n = 1 := by omega
        subst hn1
        simp [Nat.log2]
      · simp only [h1, if_false]
        have h2 : 2 ≤ n := by omega
        conv_rhs => rw [Nat.log2]
        simp [h2]

theorem bitlen_eq_log2 {n : Nat} (h64 : n < 2 ^ 64) (hn : n ≠ 0) :
    bitlen n = Nat.log2 n + 1 := by
  unfold bitlen
  rw [bitlenAux_eq 64 n h64]
  simp [hn]

theorem bitlen_le {n m : Nat} (h64 : n < 2 ^ 64) (h : n < 2 ^ m) : bitlen n ≤ m := by
  by_cases hn : n = 0
  · subst hn; simp [bitlen, bitlenAux]
  · rw [bitlen_eq_log2 h64 hn]
    have := (Nat.log2_lt hn).mpr h
    omega

theorem lt_two_pow_bitlen {n : Nat} (h64 : n < 2 ^ 64) : n < 2 ^ bitlen n := by
  by_cases hn : n = 0
  · subst hn; simp [bitlen, bitlenAux]
  · rw [bitlen_eq_log2 h64 hn]
    exact Nat.lt_log2_self

theorem two_pow_le_of_lt_bitlen {k n : Nat} (h64 : n < 2 ^ 64) (hn : n ≠ 0)
    (h : k < bitlen n) : 2 ^ k ≤ n := by
  rw [bitlen_eq_log2 h64 hn] at h
  have hk : k ≤ Nat.log2 n := by omega
  calc 2 ^ k ≤ 2 ^ Nat.log2 n := Nat.pow_le_pow_right (by norm_num) hk
  _ ≤ n := Nat.log2_self_le hn

theorem lt_bitlen_of_two_pow_le {k n : Nat} (h64 : n < 2 ^ 64) (h : 2 ^ k ≤ n) :
    k < bitlen n := by
  have h0 : 0 < 2 ^ k := Nat.pow_pos (by norm_num)
  have hn : n ≠ 0 := by omega
  rw [bitlen_eq_log2 h64 hn]
  have : k ≤ Nat.log2 n := (Nat.le_log2 hn).mpr h
  omega

theorem ctzAux_pow2 : ∀ (fuel k : Nat), k < fuel → ctzAux fuel (2 ^ k) = k := by
  intro fuel
  induction fuel with
  | zero => intro k h; omega
  | succ fuel ih =>
    intro k h
    cases k with
    | zero => simp [ctzAux]
    | succ k =>
      have hpos : 0 < 2 ^ (k + 1) := Nat.pow_pos (by norm_num)
      have heven : 2 ^ (k + 1) % 2 = 0 := by
        simp [Nat.pow_succ, Nat.mul_mod_left]
      have hdiv : 2 ^ (k + 1) / 2 = 2 ^ k := by
        rw [Nat.pow_succ]
        exact Nat.mul_div_cancel _ (by norm_num)
      simp only [ctzAux]
      rw [if_pos ⟨heven, by omega⟩, hdiv, ih k (by omega)]

/-- `__builtin_ctzll` of a 64-bit power of two yields the exponent. -/
theorem builtin_ctzll_pow2 {k : Nat} (hk : k < 64) : builtin_ctzll (2 ^ k) = k :=
  ctzAux_pow2 64 k hk

/-- For `2 ≤ n`, `LS_CEIL_LOG2 n` is the true ceiling of `log₂ n`,
provided `n ≤ 2^64` so that the `64 - clz` arithmetic does not truncate. -/
theorem LS_CEIL_LOG2_eq_clog {n : Nat} (h2 : 2 ≤ n) (h64 : n ≤ 2 ^ 64) :
    LS_CEIL_LOG2 n = Nat.clog 2 n := by
  have hm : n - 1 ≠ 0 := by omega
  have hm64 : n - 1 < 2 ^ 64 := by omega
  have hble : bitlen (n - 1) ≤ 64 := bitlen_le hm64 (by omega)
  have hceil : LS_CEIL_LOG2 n = bitlen (n - 1) := by
    unfold LS_CEIL_LOG2 builtin_clzll
    omega
  rw [hceil]
  apply Nat.le_antisymm
  · -- bitlen (n-1) ≤ clog 2 n
    by_contra hlt
    push_neg at hlt
    have h1 : 2 ^ Nat.clog 2 n ≤ n - 1 := two_pow_le_of_lt_bitlen hm64 hm hlt
    have h2' : n ≤ 2 ^ Nat.clog 2 n := Nat.le_pow_clog (by norm_num) n
    omega
  · -- clog 2 n ≤ bitlen (n-1)
    apply (Nat.le_pow_iff_clog_le (by norm_num)).mp
    have := lt_two_pow_bitlen hm64
    omega

/-- **C1.** For every requested size `s` with `0 < s ≤ 1 TiB`, the class
selected by `ls_lalloc` (src/ls_lalloc.h:229-230) and by `ls_relalloc` for
the new block (src/ls_lalloc.h:261-263) — both compute exactly
`lalloc_layer_i`/`lalloc_block_z` — is `i = ⌈log₂(max(s, 64))⌉ − 6`; the
selected layer is one of the 35 layers, and its block size
`B(i) = 64 · 2^i` equals the code's `block_z` and satisfies `B(i) ≥ s`. -/
theorem c1_layer_selection (s : Nat) (hpos : 0 < s) (hmax : s ≤ LS_LALLOC_MAX_Z_) :
    lalloc_layer_i s = Nat.clog 2 (max s 64) - 6 ∧
    lalloc_block_z s = 64 * 2 ^ lalloc_layer_i s ∧
    s ≤ lalloc_block_z s ∧
    lalloc_layer_i s < LS_LALLOC_LAYER_C_ := by
  have hmaxz : LS_LALLOC_MAX_Z_ = 2 ^ 40 := by decide
  set n := max s 64 with hn
  have hn64 : 64 ≤ n := le_max_right _ _
  have hnle : n ≤ 2 ^ 40 := by
    apply max_le
    · rw [← hmaxz]; exact hmax
    · norm_num
  have hm : n - 1 ≠ 0 := by omega
  have h40_64 : (2:Nat) ^ 40 ≤ 2 ^ 64 := by norm_num
  have hm64 : n - 1 < 2 ^ 64 := by omega
  have hbl_le : bitlen (n - 1) ≤ 40 := bitlen_le hm64 (by omega)
  have hceil : LS_CEIL_LOG2 n = bitlen (n - 1) := by
    unfold LS_CEIL_LOG2 builtin_clzll
    omega
  have hbl_ge : 6 ≤ bitlen (n - 1) := by
    have h32 : 2 ^ 5 ≤ n - 1 := by norm_num; omega
    have := lt_bitlen_of_two_pow_le hm64 h32
    omega
  have hclamp : LS_MIN s LS_LALLOC_MIN_Z_ = n := rfl
  have hlayer : lalloc_layer_i s = bitlen (n - 1) - 6 := by
    unfold lalloc_layer_i LS_LALLOC_MIN_SHIFT_
    rw [hclamp, hceil]
  have hclog : LS_CEIL_LOG2 n = Nat.clog 2 n := by
    apply LS_CEIL_LOG2_eq_clog (by omega)
    omega
  refine ⟨?_, ?_, ?_, ?_⟩
  · rw [hlayer, ← hceil, hclog]
  · unfold lalloc_block_z
    rw [hclamp, hceil, hlayer, Nat.shiftLeft_eq, one_mul]
    have h64 : (64 : Nat) = 2 ^ 6 := by norm_num
    rw [h64, ← pow_add]
    congr 1
    omega
  · unfold lalloc_block_z
    rw [hclamp, hceil, Nat.shiftLeft_eq, one_mul]
    have hlt : n - 1 < 2 ^ bitlen (n - 1) := lt_two_pow_bitlen hm64
    have hsn : s ≤ n := le_max_left _ _
    omega
  · unfold LS_LALLOC_LAYER_C_
    omega

/-- Witness for C1 at the concrete size `s = 100`: layer 1 (class 128 B). -/
theorem c1_layer_selection_witness :
    (0 < 100 ∧ 100 ≤ LS_LALLOC_MAX_Z_) ∧
    (lalloc_layer_i 100 = Nat.clog 2 (max 100 64) - 6 ∧
     lalloc_block_z 100 = 64 * 2 ^ lalloc_layer_i 100 ∧
     100 ≤ lalloc_block_z 100 ∧
     lalloc_layer_i 100 < LS_LALLOC_LAYER_C_) :=
  ⟨⟨by norm_num, by decide⟩, c1_layer_selection 100 (by norm_num) (by decide)⟩

/-! ## Helper lemmas on lists and modular arithmetic -/

theorem getD_set_self {α : Type} (l : List α) (i : Nat) (a d : α)
    (h : i < l.length) : (l.set i a).getD i d = a := by
  induction l generalizing i with
  | nil => simp at h
  | cons x xs ih =>
    cases i with
    | zero => rfl
    | succ n =>
      have hn : n < xs.length := by simpa using h
      simpa using ih n hn

theorem usub64_of_sum {t cs W : Nat} (hW : W < W64) :
    usub64 ((t * cs + W) % W64) W = t * cs % W64 := by
  unfold usub64
  rw [Nat.mod_eq_of_lt hW, Nat.mod_add_mod]
  have h1 : t * cs + W + (W64 - W) = t * cs + W64 := by omega
  rw [h1, Nat.add_mod_right]

theorem sum_mod_cs {t k W : Nat} (hk : k ≤ 64) (hal : W % 2 ^ k = 0) :
    ((t * 2 ^ k + W) % W64) % 2 ^ k = 0 := by
  have hdvd : (2:Nat) ^ k ∣ W64 := by
    unfold W64
    exact pow_dvd_pow 2 hk
  rw [Nat.mod_mod_of_dvd _ hdvd, Nat.add_mod, Nat.mul_mod_left, hal]
  simp

theorem mod_mul_pow_cancel {t k : Nat} (hk : k ≤ 64) :
    t % 2 ^ (64 - k) * 2 ^ k % W64 = t * 2 ^ k % W64 := by
  have hW : W64 = 2 ^ (64 - k) * 2 ^ k := by
    unfold W64
    rw [← pow_add]
    congr 1
    omega
  rw [hW, Nat.mul_mod_mul_right, Nat.mul_mod_mul_right, Nat.mod_mod_of_dvd _ dvd_rfl]

/-! ## Claims about the layered allocator's behaviour on concrete runs -/

/-- **C2.** The claimed invariant `block_count = bump_index − |reachable
from free_head|` fails on the code: after the valid operation sequence
`p := lalloc(64); lfree(p)` from a freshly initialized state, layer 0 has
`block_c = 1` and `head_i = 1` while exactly one freed block is reachable
from `deleted_head`, so the claim would require `block_c = 0`.  The code
never decrements `block_c` in `ls_lalloc_layer_del_spot_` and never
increments it in `ls_lalloc_layer_get_del_spot_`; `block_c` just mirrors
`head_i`. -/
theorem c2_block_count_accounting :
    ((ls_lfree (ls_lalloc someOs (initState (2 ^ 44)) 64).2
        (ls_lalloc someOs (initState (2 ^ 44)) 64).1).header_a.getD 0 oobHeader).block_c
        = 1 ∧
    ((ls_lfree (ls_lalloc someOs (initState (2 ^ 44)) 64).2
        (ls_lalloc someOs (initState (2 ^ 44)) 64).1).header_a.getD 0 oobHeader).head_i
        = 1 ∧
    unpacked_free_len
        (ls_lfree (ls_lalloc someOs (initState (2 ^ 44)) 64).2
          (ls_lalloc someOs (initState (2 ^ 44)) 64).1).mem 40
        ((ls_lfree (ls_lalloc someOs (initState (2 ^ 44)) 64).2
          (ls_lalloc someOs (initState (2 ^ 44)) 64).1).header_a.getD 0
            oobHeader).deleted_head = 1 ∧
    (1 : Nat) ≠ 1 - 1 := by
  decide

/-- **C3.** The claim that every public call releases the spinlock on
every exit path fails on the code: `ls_lalloc` of an oversize request
(`size > LS_LALLOC_MAX_Z_`, src/ls_lalloc.h:224-227) returns `LS_NULL`
without calling `ls_lalloc_spinunlock_`, leaving the lock set (the
init-failure return at line 221 has the same defect). -/
theorem c3_spinlock_not_released :
    (ls_lalloc someOs (initState (2 ^ 44)) (2 ^ 40 + 1)).1 = 0 ∧
    (ls_lalloc someOs (initState (2 ^ 44)) (2 ^ 40 + 1)).2.spinlock = true := by
  decide

/-- **C4.** The claim that the memcpy path of `ls_relalloc` copies
`min(old_bsz, new_bsz)` bytes fails on the code: line 278 copies
`header_a[old_layer_i].block_z` bytes, the OLD block size.  Shrinking a
1 MiB block (layer 14) to a 64 B block (layer 0, below the 8 MiB
threshold) copies 2^20 bytes, not `min(2^20, 64) = 64`. -/
theorem c4_memcpy_length :
    (ls_relalloc someOs (ls_lalloc someOs (initState (2 ^ 44)) (2 ^ 20)).2
        (ls_lalloc someOs (initState (2 ^ 44)) (2 ^ 20)).1 64).copied
      = some (2 ^ 44, 2 ^ 44 + 14 * 2 ^ 40, 2 ^ 20) ∧
    (2 ^ 20 : Nat) ≠ min (2 ^ 20) 64 := by
  decide

/-- **C5.** The claim that the sub-page `del_slot` writes only the first
word of the freed block and decrements `block_count` fails on the code:
freeing the 64 B block at `2^44` also writes word 1 (the link count,
first `0`, then `1`) and word 2 (the block's own address, pushed by the
packed-list code that the unpacked branch falls into for lack of a
`return`), and `block_c` stays at 1 — `ls_lalloc_layer_del_spot_` never
decrements it. -/
theorem c5_unpacked_del_spot :
    (ls_lfree (ls_lalloc someOs (initState (2 ^ 44)) 64).2
        (ls_lalloc someOs (initState (2 ^ 44)) 64).1).mem (2 ^ 44 + 8) = 1 ∧
    (ls_lfree (ls_lalloc someOs (initState (2 ^ 44)) 64).2
        (ls_lalloc someOs (initState (2 ^ 44)) 64).1).mem (2 ^ 44 + 16) = 2 ^ 44 ∧
    ((ls_lfree (ls_lalloc someOs (initState (2 ^ 44)) 64).2
        (ls_lalloc someOs (initState (2 ^ 44)) 64).1).header_a.getD 0
          oobHeader).block_c = 1 ∧
    (initState (2 ^ 44)).mem (2 ^ 44 + 8) = 0 ∧
    (initState (2 ^ 44)).mem (2 ^ 44 + 16) = 0 := by
  decide

/-- Counterexample to **C6** as stated: from a fresh state, two
`lalloc(2^40)` calls fill layer 34 (whose `block_max` is 1) and then
allocate again; the second call does not return null — it returns the
bump address one block past the layer boundary and pushes `block_c` to 2,
past `block_max`. -/
theorem c6_counterexample :
    ((ls_lalloc someOs (initState (2 ^ 44)) (2 ^ 40)).2.header_a.getD 34
        oobHeader).block_c
      = ((ls_lalloc someOs (initState (2 ^ 44)) (2 ^ 40)).2.header_a.getD 34
        oobHeader).block_max ∧
    (ls_lalloc someOs (ls_lalloc someOs (initState (2 ^ 44)) (2 ^ 40)).2 (2 ^ 40)).1
      = 2 ^ 44 + 35 * 2 ^ 40 ∧
    (ls_lalloc someOs (ls_lalloc someOs (initState (2 ^ 44)) (2 ^ 40)).2 (2 ^ 40)).1
      ≠ 0 ∧
    ((ls_lalloc someOs (ls_lalloc someOs (initState (2 ^ 44)) (2 ^ 40)).2
        (2 ^ 40)).2.header_a.getD 34 oobHeader).block_c = 2 := by
  decide

/-- **C6 (amended).** `ls_lalloc` performs no layer-full check: the
`block_c == block_max` test is commented out (src/ls_lalloc.h:322-329).
On a full layer with an empty free list, `alloc` does not return null; it
returns the bump address `layer_p + head_i * block_z` and increments
`head_i` and `block_c` past `block_max`. -/
theorem c6_no_layer_full_check (os : OsEnv) (s : LallocMeta) (size i : Nat)
    (hinit : s.initialized = true)
    (hsz : size ≤ LS_LALLOC_MAX_Z_)
    (hi : lalloc_layer_i size = i)
    (hlen : i < s.header_a.length)
    (hdh : (s.header_a.getD i oobHeader).deleted_head = 0)
    (hfull : (s.header_a.getD i oobHeader).block_c
      = (s.header_a.getD i oobHeader).block_max) :
    (ls_lalloc os s size).1 =
      ((s.header_a.getD i oobHeader).layer_p +
        (s.header_a.getD i oobHeader).head_i *
          (s.header_a.getD i oobHeader).block_z) % W64 ∧
    ((ls_lalloc os s size).2.header_a.getD i oobHeader).block_c =
      ((s.header_a.getD i oobHeader).block_max + 1) % W64 ∧
    ((ls_lalloc os s size).2.header_a.getD i oobHeader).head_i =
      ((s.header_a.getD i oobHeader).head_i + 1) % W64 := by
  subst hi
  have hns : ¬ size > LS_LALLOC_MAX_Z_ := by omega
  simp only [ls_lalloc, hinit, hns, ls_lalloc_layer_get_spot_, hdh, hfull,
    Bool.true_eq_false, if_false, ite_false, reduceIte]
  refine ⟨trivial, ?_, ?_⟩ <;> rw [getD_set_self _ _ _ _ hlen]

/-- Witness for C6 (amended) at the state reached by one `lalloc(2^40)`
from a fresh allocator: layer 34 is full (`block_max = 1`). -/
theorem c6_no_layer_full_check_witness :
    ((ls_lalloc someOs (initState (2 ^ 44)) (2 ^ 40)).2.initialized = true ∧
     (2 ^ 40 : Nat) ≤ LS_LALLOC_MAX_Z_ ∧
     lalloc_layer_i (2 ^ 40) = 34 ∧
     34 < (ls_lalloc someOs (initState (2 ^ 44)) (2 ^ 40)).2.header_a.length ∧
     (((ls_lalloc someOs (initState (2 ^ 44)) (2 ^ 40)).2.header_a.getD 34
        oobHeader).deleted_head = 0) ∧
     (((ls_lalloc someOs (initState (2 ^ 44)) (2 ^ 40)).2.header_a.getD 34
        oobHeader).block_c
       = ((ls_lalloc someOs (initState (2 ^ 44)) (2 ^ 40)).2.header_a.getD 34
        oobHeader).block_max)) ∧
    ((ls_lalloc someOs (ls_lalloc someOs (initState (2 ^ 44)) (2 ^ 40)).2
        (2 ^ 40)).1 =
      (((ls_lalloc someOs (initState (2 ^ 44)) (2 ^ 40)).2.header_a.getD 34
          oobHeader).layer_p +
        ((ls_lalloc someOs (initState (2 ^ 44)) (2 ^ 40)).2.header_a.getD 34
          oobHeader).head_i *
          ((ls_lalloc someOs (initState (2 ^ 44)) (2 ^ 40)).2.header_a.getD 34
            oobHeader).block_z) % W64 ∧
     ((ls_lalloc someOs (ls_lalloc someOs (initState (2 ^ 44)) (2 ^ 40)).2
        (2 ^ 40)).2.header_a.getD 34 oobHeader).block_c =
      (((ls_lalloc someOs (initState (2 ^ 44)) (2 ^ 40)).2.header_a.getD 34
          oobHeader).block_max + 1) % W64 ∧
     ((ls_lalloc someOs (ls_lalloc someOs (initState (2 ^ 44)) (2 ^ 40)).2
        (2 ^ 40)).2.header_a.getD 34 oobHeader).head_i =
      (((ls_lalloc someOs (initState (2 ^ 44)) (2 ^ 40)).2.header_a.getD 34
          oobHeader).head_i + 1) % W64) :=
  ⟨⟨by decide, by decide, by decide, by decide, by decide, by decide⟩,
    c6_no_layer_full_check someOs (ls_lalloc someOs (initState (2 ^ 44)) (2 ^ 40)).2
      (2 ^ 40) 34 (by decide) (by decide) (by decide) (by decide) (by decide)
      (by decide)⟩

/-- Counterexample to **C7** as stated: at the freshly initialized state
with window base `255 · 2^40`, `ls_lfree(NULL)` is not a no-op — it
modifies the state (it writes free-list metadata through the null
pointer: the word at address 8 becomes 1). -/
theorem c7_counterexample :
    ls_lfree (initState (255 * 2 ^ 40)) 0 ≠ initState (255 * 2 ^ 40) := by
  intro h
  have h1 : (ls_lfree (initState (255 * 2 ^ 40)) 0).mem 8
      = (initState (255 * 2 ^ 40)).mem 8 := by rw [h]
  have h2 : (ls_lfree (initState (255 * 2 ^ 40)) 0).mem 8 = 1 := by decide
  have h3 : (initState (255 * 2 ^ 40)).mem 8 = 0 := by decide
  omega

/-- **C7 (amended).** `ls_lfree` has no null guard: `lfree(NULL)` derives
a layer index from address 0 (`(0 − vspace_p) / 2^40` truncated to
`ls_u8_t`) and runs `del_spot_` on address 0.  Whenever the layer so
selected is a sub-page one, it dereferences null: it writes free-list
words at addresses 0, 8 and 16 (address 8 ends holding link count 1) and
points the layer's free head at address 0, instead of doing nothing. -/
theorem c7_free_null_not_noop (s : LallocMeta) (ℓ : Nat)
    (hl : ℓ = usub64 0 s.vspace_p / LS_LALLOC_LAYER_Z_ % W8)
    (hlen : ℓ < s.header_a.length)
    (hsub : (s.header_a.getD ℓ oobHeader).block_z < s.page_z) :
    (ls_lfree s 0).mem 0 = 0 ∧
    (ls_lfree s 0).mem 8 = 1 ∧
    (ls_lfree s 0).mem 16 = 0 ∧
    ((ls_lfree s 0).header_a.getD ℓ oobHeader).deleted_head = 0 ∧
    ((ls_lfree s 0).header_a.getD ℓ oobHeader).block_c
      = (s.header_a.getD ℓ oobHeader).block_c := by
  simp only [ls_lfree, ls_lalloc_layer_del_spot_, ← hl]
  have hset : ∀ (x : ls_lalloc_layer_header_),
      (s.header_a.set ℓ x).getD ℓ oobHeader = x := fun x => getD_set_self _ _ _ _ hlen
  have hset2 : ∀ (x : ls_lalloc_layer_header_),
      (s.header_a.set ℓ x)[ℓ]?.getD oobHeader = x := fun x => by
    rw [← List.getD_eq_getElem?_getD]
    exact getD_set_self _ _ _ _ hlen
  simp only [List.set_set, hset, hsub, if_true, reduceIte, ite_true]
  norm_num [wupd, W64, hset2]

/-- Witness for C7 (amended) at the fresh state with window base
`255 · 2^40`, for which the computed layer index is 1 (a 128 B class). -/
theorem c7_free_null_not_noop_witness :
    ((1 : Nat) = usub64 0 (initState (255 * 2 ^ 40)).vspace_p
        / LS_LALLOC_LAYER_Z_ % W8 ∧
     1 < (initState (255 * 2 ^ 40)).header_a.length ∧
     ((initState (255 * 2 ^ 40)).header_a.getD 1 oobHeader).block_z
       < (initState (255 * 2 ^ 40)).page_z) ∧
    ((ls_lfree (initState (255 * 2 ^ 40)) 0).mem 0 = 0 ∧
     (ls_lfree (initState (255 * 2 ^ 40)) 0).mem 8 = 1 ∧
     (ls_lfree (initState (255 * 2 ^ 40)) 0).mem 16 = 0 ∧
     ((ls_lfree (initState (255 * 2 ^ 40)) 0).header_a.getD 1
        oobHeader).deleted_head = 0 ∧
     ((ls_lfree (initState (255 * 2 ^ 40)) 0).header_a.getD 1
        oobHeader).block_c
       = ((initState (255 * 2 ^ 40)).header_a.getD 1 oobHeader).block_c) :=
  ⟨⟨by decide, by decide, by decide⟩,
    c7_free_null_not_noop (initState (255 * 2 ^ 40)) 1 (by decide) (by decide)
      (by decide)⟩

theorem get_chunk_cases (m : Nat → Nat) (a : ls_chunk_arena_t)
    (hne : a._max_chunk_c ≠ a._chunk_c) :
    ∃ t A1,
      ls_chunk_arena_get_chunk m a =
        ((t * a._chunk_size + a._memory) % W64, LS_CHUNK_ARENA_SUCCESS, A1) ∧
      A1._memory = a._memory ∧ A1._max_chunk_c = a._max_chunk_c ∧
      A1._chunk_size = a._chunk_size ∧ A1._chunk_c = (a._chunk_c + 1) % W64 := by
  unfold ls_chunk_arena_get_chunk
  rw [if_neg hne]
  by_cases hld : a._last_deleted_chunk = 0
  · refine ⟨a._next_committed_chunk - 1,
      { a with _chunk_c := (a._chunk_c + 1) % W64
               _next_committed_chunk := (a._next_committed_chunk + 1) % W64 },
      ?_, rfl, rfl, rfl, rfl⟩
    simp [hld, ls_chunk_arena_index_to_ptr]
  · refine ⟨a._last_deleted_chunk - 1,
      { a with _chunk_c := (a._chunk_c + 1) % W64
               _last_deleted_chunk :=
                 m (((a._last_deleted_chunk - 1) * a._chunk_size + a._memory) % W64) },
      ?_, rfl, rfl, rfl, rfl⟩
    simp [hld, ls_chunk_arena_revive_last_deleted_chunk_, ls_chunk_arena_index_to_ptr]

theorem get_chunk_revive (m : Nat → Nat) (a : ls_chunk_arena_t)
    (hne : a._max_chunk_c ≠ a._chunk_c) (hld : a._last_deleted_chunk ≠ 0) :
    ls_chunk_arena_get_chunk m a =
      (((a._last_deleted_chunk - 1) * a._chunk_size + a._memory) % W64,
        LS_CHUNK_ARENA_SUCCESS,
        { a with
          _chunk_c := (a._chunk_c + 1) % W64
          _last_deleted_chunk :=
            m (((a._last_deleted_chunk - 1) * a._chunk_size + a._memory) % W64) }) := by
  unfold ls_chunk_arena_get_chunk
  rw [if_neg hne]
  simp [hld, ls_chunk_arena_revive_last_deleted_chunk_, ls_chunk_arena_index_to_ptr]

theorem delete_chunk_aligned (m : Nat → Nat) (a : ls_chunk_arena_t) (t k : Nat)
    (hcs : a._chunk_size = 2 ^ k) (hk : k < 64)
    (hW : a._memory < W64) (hal : a._memory % a._chunk_size = 0) :
    ls_chunk_arena_delete_chunk m a ((t * a._chunk_size + a._memory) % W64) =
      (wupd m ((t * a._chunk_size + a._memory) % W64) a._last_deleted_chunk,
        { a with
          _last_deleted_chunk := (t % 2 ^ (64 - k) + 1) % W64
          _chunk_c := (a._chunk_c + (W64 - 1)) % W64 }) := by
  simp only [ls_chunk_arena_delete_chunk, LS_ROUND_DOWN_TO]
  rw [hcs] at hal ⊢
  have h0 : ((t * 2 ^ k + a._memory) % W64) % 2 ^ k = 0 :=
    sum_mod_cs (Nat.le_of_lt hk) hal
  rw [h0, Nat.sub_zero, usub64_of_sum hW, builtin_ctzll_pow2 hk]
  have hshift : (t * 2 ^ k % W64) >>> k = t % 2 ^ (64 - k) := by
    rw [Nat.shiftRight_eq_div_pow]
    have hW64 : W64 = 2 ^ (64 - k) * 2 ^ k := by
      unfold W64
      rw [← pow_add]
      congr 1
      omega
    rw [hW64, Nat.mul_mod_mul_right, Nat.mul_div_cancel _ (Nat.pow_pos (by norm_num))]
  rw [hshift]

theorem index_ptr_mod_eq {t k W : Nat} (hk : k ≤ 64) :
    (t % 2 ^ (64 - k) * 2 ^ k + W) % W64 = (t * 2 ^ k + W) % W64 := by
  calc (t % 2 ^ (64 - k) * 2 ^ k + W) % W64
      = (t % 2 ^ (64 - k) * 2 ^ k % W64 + W) % W64 := (Nat.mod_add_mod _ _ _).symm
  _ = (t * 2 ^ k % W64 + W) % W64 := by rw [mod_mul_pow_cancel hk]
  _ = (t * 2 ^ k + W) % W64 := Nat.mod_add_mod _ _ _

/-- **C8.** LIFO reuse of released chunks: on any chunk arena whose chunk
size is a power of two (at least the 8 bytes a free-list link needs),
whose base is aligned to the chunk size, and which has at least two chunks
still available, the sequence `a = acquire; b = acquire; release(b);
release(a); c = acquire; d = acquire` succeeds at every step and yields
`c = a` and `d = b`. -/
theorem c8_chunk_arena_lifo (m : Nat → Nat) (a : ls_chunk_arena_t) (k : Nat)
    (hcs : a._chunk_size = 2 ^ k) (hk3 : 3 ≤ k) (hk : k < 64)
    (hW : a._memory < W64) (hal : a._memory % a._chunk_size = 0)
    (hmax : a._max_chunk_c < W64)
    (havail : a._chunk_c + 2 ≤ a._max_chunk_c) :
    (c8_g1 m a).2.1 = LS_CHUNK_ARENA_SUCCESS ∧
    (c8_g2 m a).2.1 = LS_CHUNK_ARENA_SUCCESS ∧
    (c8_g3 m a).2.1 = LS_CHUNK_ARENA_SUCCESS ∧
    (c8_g4 m a).2.1 = LS_CHUNK_ARENA_SUCCESS ∧
    (c8_g3 m a).1 = (c8_g1 m a).1 ∧
    (c8_g4 m a).1 = (c8_g2 m a).1 := by
  have hW64 : W64 = 18446744073709551616 := by norm_num [W64]
  have hpow : (2:Nat) ^ (64 - k) ≤ 2 ^ 61 := Nat.pow_le_pow_right (by norm_num) (by omega)
  have hpow61 : (2:Nat) ^ 61 = 2305843009213693952 := by norm_num
  -- step 1: a = acquire
  have hne1 : a._max_chunk_c ≠ a._chunk_c := by omega
  obtain ⟨ta, A1, hga, e1mem, e1max, e1cs, e1cc⟩ := get_chunk_cases m a hne1
  have hC1 : (a._chunk_c + 1) % W64 = a._chunk_c + 1 := Nat.mod_eq_of_lt (by omega)
  rw [hC1] at e1cc
  -- step 2: b = acquire
  have hne2 : A1._max_chunk_c ≠ A1._chunk_c := by rw [e1max, e1cc]; omega
  obtain ⟨tb, A2, hgb, e2mem, e2max, e2cs, e2cc⟩ := get_chunk_cases m A1 hne2
  rw [e1cc] at e2cc
  rw [e1max] at e2max
  rw [e1mem] at e2mem
  rw [e1cs] at e2cs
  have hC2 : (a._chunk_c + 1 + 1) % W64 = a._chunk_c + 2 := Nat.mod_eq_of_lt (by omega)
  rw [hC2] at e2cc
  have htamod : ta % 2 ^ (64 - k) < 2 ^ (64 - k) := Nat.mod_lt _ (Nat.pow_pos (by norm_num))
  have htbmod : tb % 2 ^ (64 - k) < 2 ^ (64 - k) := Nat.mod_lt _ (Nat.pow_pos (by norm_num))
  have hptra : (ta % 2 ^ (64 - k) * a._chunk_size + a._memory) % W64
      = (ta * a._chunk_size + a._memory) % W64 := by
    rw [hcs]
    exact index_ptr_mod_eq (Nat.le_of_lt hk)
  have hptrb : (tb % 2 ^ (64 - k) * a._chunk_size + a._memory) % W64
      = (tb * a._chunk_size + a._memory) % W64 := by
    rw [hcs]
    exact index_ptr_mod_eq (Nat.le_of_lt hk)
  -- the two returned pointers and statuses
  have hpa : (c8_g1 m a).1 = (ta * a._chunk_size + a._memory) % W64 := by
    unfold c8_g1
    rw [hga]
  have hpb : (c8_g2 m a).1 = (tb * a._chunk_size + a._memory) % W64 := by
    unfold c8_g2 c8_g1
    rw [hga, hgb, e1cs, e1mem]
  have hs1 : (c8_g1 m a).2.1 = LS_CHUNK_ARENA_SUCCESS := by
    unfold c8_g1
    rw [hga]
  have hs2 : (c8_g2 m a).2.1 = LS_CHUNK_ARENA_SUCCESS := by
    unfold c8_g2 c8_g1
    rw [hga, hgb]
  have htb1 : (tb % 2 ^ (64 - k) + 1) % W64 = tb % 2 ^ (64 - k) + 1 :=
    Nat.mod_eq_of_lt (by omega)
  have hta1 : (ta % 2 ^ (64 - k) + 1) % W64 = ta % 2 ^ (64 - k) + 1 :=
    Nat.mod_eq_of_lt (by omega)
  have hcdec1 : (a._chunk_c + 2 + (W64 - 1)) % W64 = a._chunk_c + 1 := by
    have h : a._chunk_c + 2 + (W64 - 1) = a._chunk_c + 1 + W64 := by omega
    rw [h, Nat.add_mod_right]
    exact Nat.mod_eq_of_lt (by omega)
  have hcdec2 : (a._chunk_c + 1 + (W64 - 1)) % W64 = a._chunk_c := by
    have h : a._chunk_c + 1 + (W64 - 1) = a._chunk_c + W64 := by omega
    rw [h, Nat.add_mod_right]
    exact Nat.mod_eq_of_lt (by omega)
  -- step 3: release(b)
  have hd1 : c8_d1 m a =
      (wupd m ((tb * a._chunk_size + a._memory) % W64) A2._last_deleted_chunk,
        { _memory := a._memory, _max_chunk_c := A2._max_chunk_c
          _chunk_size := a._chunk_size, _chunk_c := a._chunk_c + 1
          _next_committed_chunk := A2._next_committed_chunk
          _last_deleted_chunk := tb % 2 ^ (64 - k) + 1 }) := by
    unfold c8_d1 c8_g2 c8_g1
    rw [hga, hgb, e1cs, e1mem]
    show ls_chunk_arena_delete_chunk m A2 ((tb * a._chunk_size + a._memory) % W64) = _
    have h := delete_chunk_aligned m A2 tb k (by rw [e2cs, hcs]) hk
      (by rw [e2mem]; exact hW) (by rw [e2mem, e2cs]; exact hal)
    rw [e2cs, e2mem, e2cc, htb1, hcdec1] at h
    exact h
  -- step 4: release(a)
  have hd2 : c8_d2 m a =
      (wupd (wupd m ((tb * a._chunk_size + a._memory) % W64) A2._last_deleted_chunk)
          ((ta * a._chunk_size + a._memory) % W64) (tb % 2 ^ (64 - k) + 1),
        { _memory := a._memory, _max_chunk_c := A2._max_chunk_c
          _chunk_size := a._chunk_size, _chunk_c := a._chunk_c
          _next_committed_chunk := A2._next_committed_chunk
          _last_deleted_chunk := ta % 2 ^ (64 - k) + 1 }) := by
    unfold c8_d2
    rw [hd1, hpa]
    have h := delete_chunk_aligned
      (wupd m ((tb * a._chunk_size + a._memory) % W64) A2._last_deleted_chunk)
      { _memory := a._memory, _max_chunk_c := A2._max_chunk_c
        _chunk_size := a._chunk_size, _chunk_c := a._chunk_c + 1
        _next_committed_chunk := A2._next_committed_chunk
        _last_deleted_chunk := tb % 2 ^ (64 - k) + 1 }
      ta k hcs hk hW hal
    dsimp only at h
    rw [hta1, hcdec2] at h
    exact h
  -- the word the second release stored at chunk [a]'s base
  have hmemread :
      (wupd (wupd m ((tb * a._chunk_size + a._memory) % W64) A2._last_deleted_chunk)
        ((ta * a._chunk_size + a._memory) % W64) (tb % 2 ^ (64 - k) + 1))
        ((ta * a._chunk_size + a._memory) % W64) = tb % 2 ^ (64 - k) + 1 := by
    simp [wupd]
  -- step 5: c = acquire
  have hg3 : c8_g3 m a =
      ((ta * a._chunk_size + a._memory) % W64, LS_CHUNK_ARENA_SUCCESS,
        { _memory := a._memory, _max_chunk_c := A2._max_chunk_c
          _chunk_size := a._chunk_size, _chunk_c := (a._chunk_c + 1) % W64
          _next_committed_chunk := A2._next_committed_chunk
          _last_deleted_chunk := tb % 2 ^ (64 - k) + 1 }) := by
    unfold c8_g3
    rw [hd2]
    have h := get_chunk_revive
      (wupd (wupd m ((tb * a._chunk_size + a._memory) % W64) A2._last_deleted_chunk)
        ((ta * a._chunk_size + a._memory) % W64) (tb % 2 ^ (64 - k) + 1))
      { _memory := a._memory, _max_chunk_c := A2._max_chunk_c
        _chunk_size := a._chunk_size, _chunk_c := a._chunk_c
        _next_committed_chunk := A2._next_committed_chunk
        _last_deleted_chunk := ta % 2 ^ (64 - k) + 1 }
      (by show A2._max_chunk_c ≠ a._chunk_c; rw [e2max]; omega)
      (by show ta % 2 ^ (64 - k) + 1 ≠ 0; omega)
    dsimp only at h
    rw [Nat.add_sub_cancel, hptra, hmemread] at h
    exact h
  -- step 6: d = acquire
  have hg4 : c8_g4 m a =
      ((tb * a._chunk_size + a._memory) % W64, LS_CHUNK_ARENA_SUCCESS,
        { _memory := a._memory, _max_chunk_c := A2._max_chunk_c
          _chunk_size := a._chunk_size, _chunk_c := ((a._chunk_c + 1) % W64 + 1) % W64
          _next_committed_chunk := A2._next_committed_chunk
          _last_deleted_chunk :=
            (wupd (wupd m ((tb * a._chunk_size + a._memory) % W64)
                A2._last_deleted_chunk)
              ((ta * a._chunk_size + a._memory) % W64) (tb % 2 ^ (64 - k) + 1))
              ((tb * a._chunk_size + a._memory) % W64) }) := by
    unfold c8_g4
    rw [hd2, hg3]
    have h := get_chunk_revive
      (wupd (wupd m ((tb * a._chunk_size + a._memory) % W64) A2._last_deleted_chunk)
        ((ta * a._chunk_size + a._memory) % W64) (tb % 2 ^ (64 - k) + 1))
      { _memory := a._memory, _max_chunk_c := A2._max_chunk_c
        _chunk_size := a._chunk_size, _chunk_c := (a._chunk_c + 1) % W64
        _next_committed_chunk := A2._next_committed_chunk
        _last_deleted_chunk := tb % 2 ^ (64 - k) + 1 }
      (by show A2._max_chunk_c ≠ (a._chunk_c + 1) % W64; rw [e2max, hC1]; omega)
      (by show tb % 2 ^ (64 - k) + 1 ≠ 0; omega)
    dsimp only at h
    rw [Nat.add_sub_cancel, hptrb] at h
    exact h
  refine ⟨hs1, hs2, ?_, ?_, ?_, ?_⟩
  · rw [hg3]
  · rw [hg4]
  · rw [hg3, hpa]
  · rw [hg4, hpb]

/-- Witness for C8 on a fresh arena over a 64 KiB region at base 65536
with 4 KiB chunks (16 chunks, none yet acquired). -/
theorem c8_chunk_arena_lifo_witness :
    ((ls_chunk_arena_init 65536 65536 4096)._chunk_size = 2 ^ 12 ∧
     (3:Nat) ≤ 12 ∧ (12:Nat) < 64 ∧
     (ls_chunk_arena_init 65536 65536 4096)._memory < W64 ∧
     (ls_chunk_arena_init 65536 65536 4096)._memory %
       (ls_chunk_arena_init 65536 65536 4096)._chunk_size = 0 ∧
     (ls_chunk_arena_init 65536 65536 4096)._max_chunk_c < W64 ∧
     (ls_chunk_arena_init 65536 65536 4096)._chunk_c + 2 ≤
       (ls_chunk_arena_init 65536 65536 4096)._max_chunk_c) ∧
    ((c8_g1 (fun _ => 0) (ls_chunk_arena_init 65536 65536 4096)).2.1
        = LS_CHUNK_ARENA_SUCCESS ∧
     (c8_g2 (fun _ => 0) (ls_chunk_arena_init 65536 65536 4096)).2.1
        = LS_CHUNK_ARENA_SUCCESS ∧
     (c8_g3 (fun _ => 0) (ls_chunk_arena_init 65536 65536 4096)).2.1
        = LS_CHUNK_ARENA_SUCCESS ∧
     (c8_g4 (fun _ => 0) (ls_chunk_arena_init 65536 65536 4096)).2.1
        = LS_CHUNK_ARENA_SUCCESS ∧
     (c8_g3 (fun _ => 0) (ls_chunk_arena_init 65536 65536 4096)).1
        = (c8_g1 (fun _ => 0) (ls_chunk_arena_init 65536 65536 4096)).1 ∧
     (c8_g4 (fun _ => 0) (ls_chunk_arena_init 65536 65536 4096)).1
        = (c8_g2 (fun _ => 0) (ls_chunk_arena_init 65536 65536 4096)).1) :=
  ⟨⟨by decide, by decide, by decide, by decide, by decide, by decide, by decide⟩,
    c8_chunk_arena_lifo (fun _ => 0) (ls_chunk_arena_init 65536 65536 4096) 12
      (by decide) (by decide) (by decide) (by decide) (by decide) (by decide)
      (by decide)⟩

/-- **C9.** `ls_chunk_arena_delete_chunk` rounds the given pointer down to
the chunk boundary (src/ls_chunk_arena.h:178) before computing the
free-stack index: for an aligned arena, releasing any interior pointer
`base + i·chunk_size + off` with `off < chunk_size` has exactly the same
effect on the memory and the arena as releasing the chunk's base address. -/
theorem c9_interior_pointer_release (m : Nat → Nat) (a : ls_chunk_arena_t)
    (k i off : Nat)
    (hcs : a._chunk_size = 2 ^ k)
    (hmem : a._memory % a._chunk_size = 0)
    (hoff : off < a._chunk_size) :
    ls_chunk_arena_delete_chunk m a (i * a._chunk_size + a._memory + off) =
      ls_chunk_arena_delete_chunk m a (i * a._chunk_size + a._memory) := by
  have hbase : (i * a._chunk_size + a._memory) % a._chunk_size = 0 := by
    rw [Nat.add_mod, Nat.mul_mod_left, hmem]
    simp
  unfold ls_chunk_arena_delete_chunk LS_ROUND_DOWN_TO
  have h1 : (i * a._chunk_size + a._memory + off) % a._chunk_size = off := by
    rw [Nat.add_mod, hbase, Nat.zero_add, Nat.mod_mod_of_dvd _ dvd_rfl]
    exact Nat.mod_eq_of_lt hoff
  have h2 : i * a._chunk_size + a._memory + off -
      (i * a._chunk_size + a._memory + off) % a._chunk_size =
      i * a._chunk_size + a._memory := by
    rw [h1]
    omega
  have h3 : i * a._chunk_size + a._memory -
      (i * a._chunk_size + a._memory) % a._chunk_size =
      i * a._chunk_size + a._memory := by
    rw [hbase]
    exact Nat.sub_zero _
  rw [h2, h3]

/-- Witness for C9: releasing via the pointer 100 bytes into chunk 3 of a
4 KiB-chunk arena at base 65536 equals releasing via the chunk's base. -/
theorem c9_interior_pointer_release_witness :
    ((ls_chunk_arena_init 65536 65536 4096)._chunk_size = 2 ^ 12 ∧
     (ls_chunk_arena_init 65536 65536 4096)._memory %
       (ls_chunk_arena_init 65536 65536 4096)._chunk_size = 0 ∧
     (100:Nat) < (ls_chunk_arena_init 65536 65536 4096)._chunk_size) ∧
    ls_chunk_arena_delete_chunk (fun _ => 0) (ls_chunk_arena_init 65536 65536 4096)
        (3 * (ls_chunk_arena_init 65536 65536 4096)._chunk_size +
          (ls_chunk_arena_init 65536 65536 4096)._memory + 100) =
      ls_chunk_arena_delete_chunk (fun _ => 0) (ls_chunk_arena_init 65536 65536 4096)
        (3 * (ls_chunk_arena_init 65536 65536 4096)._chunk_size +
          (ls_chunk_arena_init 65536 65536 4096)._memory) :=
  ⟨⟨by decide, by decide, by decide⟩,
    c9_interior_pointer_release (fun _ => 0) (ls_chunk_arena_init 65536 65536 4096)
      12 3 100 (by decide) (by decide) (by decide)⟩

/-- **C10.** `pfree_range` (src/ls_valloc.h:152-170 and the identical
src/ls_mallocs.h:192-210) never decommits any byte of the page containing
`ptr + offset`: the `madvise(MADV_DONTNEED)` region starts exactly at
`ptr + round_down(offset, page_size) + page_size` — one full page past the
page the offset falls in, even when `offset` is already page-aligned —
and the function returns without touching memory exactly when the rounded
range is zero or the adjusted offset is at or beyond `memtotal()`. -/
theorem c10_pfree_range (memtotal page_size ptr offset range : Nat)
    (hps : 0 < page_size)
    (hal : ptr % page_size = 0)
    (hoff : offset + page_size < W64)
    (hptr : ptr + offset + page_size < W64) :
    (ls_pfree_range memtotal page_size ptr offset range = none ↔
      LS_ROUND_DOWN_TO range page_size = 0 ∨
      memtotal ≤ LS_ROUND_DOWN_TO offset page_size + page_size) ∧
    ∀ st len, ls_pfree_range memtotal page_size ptr offset range = some (st, len) →
      st = ptr + LS_ROUND_DOWN_TO offset page_size + page_size ∧
      ptr + offset - (ptr + offset) % page_size + page_size ≤ st := by
  have hrd : LS_ROUND_DOWN_TO offset page_size ≤ offset := by
    unfold LS_ROUND_DOWN_TO
    omega
  have ho1 : (LS_ROUND_DOWN_TO offset page_size + page_size) % W64 =
      LS_ROUND_DOWN_TO offset page_size + page_size :=
    Nat.mod_eq_of_lt (by omega)
  have hst : (ptr + (LS_ROUND_DOWN_TO offset page_size + page_size)) % W64 =
      ptr + LS_ROUND_DOWN_TO offset page_size + page_size := by
    rw [Nat.mod_eq_of_lt (by omega), Nat.add_assoc]
  unfold ls_pfree_range
  rw [ho1]
  have hmof : (ptr + offset) % page_size = offset % page_size := by
    rw [Nat.add_mod, hal, Nat.zero_add, Nat.mod_mod_of_dvd _ dvd_rfl]
  by_cases hcond : LS_ROUND_DOWN_TO range page_size = 0 ∨
      LS_ROUND_DOWN_TO offset page_size + page_size ≥ memtotal
  · rw [if_pos hcond]
    refine ⟨⟨fun _ => ?_, fun _ => rfl⟩, ?_⟩
    · rcases hcond with h | h
      · exact Or.inl h
      · exact Or.inr (by omega)
    · intro st len h
      exact absurd h (by simp)
  · rw [if_neg hcond]
    refine ⟨⟨fun h => absurd h (by simp), fun hc => ?_⟩, ?_⟩
    · refine absurd ?_ hcond
      rcases hc with h | h
      · exact Or.inl h
      · exact Or.inr (by omega)
    · intro st len h
      simp only [Option.some_inj, Prod.mk.injEq] at h
      obtain ⟨h1, h2⟩ := h
      rw [← h1, hst]
      refine ⟨rfl, ?_⟩
      rw [hmof]
      unfold LS_ROUND_DOWN_TO
      have := Nat.mod_le offset page_size
      omega

/-- Witness for C10 at `memtotal = 2^20`, 4 KiB pages, `ptr = 2^30` and the
already-page-aligned `offset = 8192`, `range = 8192`: the decommit starts
at `ptr + 8192 + 4096`, one page past the page containing `ptr + 8192`. -/
theorem c10_pfree_range_witness :
    ((0:Nat) < 4096 ∧ (2:Nat) ^ 30 % 4096 = 0 ∧
     (8192:Nat) + 4096 < W64 ∧ (2:Nat) ^ 30 + 8192 + 4096 < W64) ∧
    ((ls_pfree_range (2 ^ 20) 4096 (2 ^ 30) 8192 8192 = none ↔
      LS_ROUND_DOWN_TO 8192 4096 = 0 ∨
      (2:Nat) ^ 20 ≤ LS_ROUND_DOWN_TO 8192 4096 + 4096) ∧
     ∀ st len, ls_pfree_range (2 ^ 20) 4096 (2 ^ 30) 8192 8192 = some (st, len) →
       st = 2 ^ 30 + LS_ROUND_DOWN_TO 8192 4096 + 4096 ∧
       2 ^ 30 + 8192 - (2 ^ 30 + 8192) % 4096 + 4096 ≤ st) :=
  ⟨⟨by decide, by decide, by decide, by decide⟩,
    c10_pfree_range (2 ^ 20) 4096 (2 ^ 30) 8192 8192 (by decide) (by decide)
      (by decide) (by decide)⟩
